import Mathlib

/-!
# Verification of the multi-tenant agent session manager

A shallow embedding of the session manager and chat dispatch pipeline of
`src/server/agent_manager.py` and `src/server/main.py`.

Modelling conventions:
* Time is a `Nat` passed explicitly (`time.time()` becomes a `now` argument).
* The language-model backend (`pydantic_ai.Agent.run`), the toolset config
  loader (`load_mcp_servers`) and the agent constructor are external black
  boxes; they enter the model as function parameters
  (`runAgent`, `ld`, `bd`).  Filesystem side effects (`os.makedirs`) carry
  no state the manager reads and are dropped.
* Conversation messages are opaque records; `Msg` keeps just enough
  structure to distinguish turns.
* Python's in-memory dict `self.sessions` is an association list with the
  dict's observable semantics (first-match lookup, in-place value update,
  append on fresh key, removal on delete).
-/

namespace MCPAgent

/-- One opaque conversation record as stored in `session.history_context`
(user input, agent output, or an intermediate tool-invocation record). -/
inductive Msg where
  | user (content : String)
  | assistant (content : String)
  | toolcall (content : String)
deriving DecidableEq, Repr

/-- One tool-server specification as returned by `load_mcp_servers`:
`has_args` models Python's `hasattr(i, 'args')`, `args` the positional
argument list of the command descriptor, `timeout` the execution timeout. -/
structure MCPSpec where
  has_args : Bool
  args : List String
  timeout : Nat
deriving DecidableEq, Repr

/-- `AgentConfig` from `agent_manager.py`. -/
structure AgentConfig where
  model_name : String
  api_key : String
  base_url : Option String
  system_prompt : String
  workspace_root : String
  mcp_configs : List String
deriving DecidableEq, Repr

/-- `UserSession` from `agent_manager.py`.  `agentOk` models
`session.agent is not None` (the only observation `main.py` makes of the
agent handle besides invoking it). -/
structure UserSession where
  username : String
  agent_config : AgentConfig
  agentOk : Bool
  last_active : Nat
  is_active : Bool
  history_context : List Msg
deriving DecidableEq, Repr

/-- The `{username: UserSession}` dict, as an association list. -/
abbrev SessionMap := List (String × UserSession)

/-- Dict lookup: `self.sessions.get(username)`. -/
def lookupS (u : String) : SessionMap → Option UserSession
  | [] => none
  | (k, s) :: rest => if k = u then some s else lookupS u rest

/-- Dict membership: `username in self.sessions`. -/
def containsS (u : String) (l : SessionMap) : Bool :=
  (lookupS u l).isSome

/-- Dict deletion: `del self.sessions[username]`. -/
def eraseS (u : String) (l : SessionMap) : SessionMap :=
  l.filter (fun p => p.1 ≠ u)

/-- In-place mutation of the session object stored under key `u`
(e.g. `self.sessions[username].last_active = ...`). -/
def updateS (u : String) (f : UserSession → UserSession) (l : SessionMap) : SessionMap :=
  l.map (fun p => if p.1 = u then (p.1, f p.2) else p)

/-- Dict assignment `self.sessions[username] = session`: replace in place
if the key is present, append otherwise. -/
def insertS (u : String) (s : UserSession) (l : SessionMap) : SessionMap :=
  if containsS u l then updateS u (fun _ => s) l else l ++ [(u, s)]

/-- The mutable state of `AgentManager` (its `__init__` fields). -/
structure AgentManager where
  sessions : SessionMap
  filesystem_mcp_name : String
  workspace_root : Option String
  mcp_configs : List String
deriving DecidableEq, Repr

/-- `AgentManager.__init__`. -/
def AgentManager.init : AgentManager :=
  { sessions := []
    filesystem_mcp_name := "@modelcontextprotocol/server-filesystem"
    workspace_root := none
    mcp_configs := [] }

/-- `AgentManager.get_session`. -/
def get_session (m : AgentManager) (username : String) : Option UserSession :=
  lookupS username m.sessions

/-- `AgentManager.close_session`: if present, flip `is_active` and delete
from the map (the flipped flag leaves the store with the object, so only
the deletion is observable through the manager). -/
def close_session (m : AgentManager) (username : String) : AgentManager :=
  if containsS username m.sessions then
    { m with sessions := eraseS username m.sessions }
  else m

/-- `AgentManager.update_last_active`. -/
def update_last_active (m : AgentManager) (username : String) (now : Nat) : AgentManager :=
  if containsS username m.sessions then
    { m with sessions := updateS username (fun s => { s with last_active := now }) m.sessions }
  else m

/-- `AgentManager.cleanup_inactive_sessions`: collect every username whose
`now - last_active > timeout`, then close each. -/
def cleanup_inactive_sessions (m : AgentManager) (now : Nat) (timeout : Nat) : AgentManager :=
  let inactive_users := (m.sessions.filter (fun p => timeout < now - p.2.last_active)).map (fun p => p.1)
  inactive_users.foldl close_session m

/-- `AgentManager.get_active_users`. -/
def get_active_users (m : AgentManager) : List String :=
  m.sessions.map (fun p => p.1)

/-! ## Tool provisioning (`AgentManager.load_mcp_server`) -/

/-- The body of the second loop in `load_mcp_server`, for one spec `sp`:
if the spec has an `args` attribute whose second element is the
filesystem-tool identifier, its third element (`args[2]`) is overwritten
with the per-user sandbox path; Python raises `IndexError` there when the
list has no index 2, and `TypeError` when `workspace_root` is still
`None`.  Every spec gets the uniform `timeout` stamped. -/
def rewriteSpec (fs : String) (wsr : Option String) (username : String) (timeout : Nat)
    (sp : MCPSpec) : Except String MCPSpec :=
  if sp.has_args = true ∧ 1 < sp.args.length ∧ sp.args.getD 1 "" = fs then
    match wsr with
    | none => Except.error "TypeError: unsupported operand types NoneType and str"
    | some root =>
      if 2 < sp.args.length then
        Except.ok { sp with args := sp.args.set 2 (root ++ "/workspace_" ++ username),
                            timeout := timeout }
      else Except.error "IndexError: list assignment index out of range"
  else Except.ok { sp with timeout := timeout }

/-- The second loop of `load_mcp_server`: process the concatenated specs
in order, appending each processed spec; the first raised exception aborts
the loop (and the partially built list is discarded with the frame). -/
def stampLoop (f : MCPSpec → Except String MCPSpec) : List MCPSpec → Except String (List MCPSpec)
  | [] => Except.ok []
  | sp :: rest =>
    match f sp with
    | Except.error e => Except.error e
    | Except.ok sp₁ =>
      match stampLoop f rest with
      | Except.error e => Except.error e
      | Except.ok rest₁ => Except.ok (sp₁ :: rest₁)

/-- `AgentManager.load_mcp_server`: concatenate each source's specs in
source order (`final_server += server`), then rewrite/stamp each spec in
order; the first raised exception aborts the whole call.  `ld` stands for
the external `load_mcp_servers` config parser. -/
def load_mcp_server (ld : String → List MCPSpec) (m : AgentManager) (username : String)
    (configs : List String) (timeout : Nat) : Except String (List MCPSpec) :=
  stampLoop (rewriteSpec m.filesystem_mcp_name m.workspace_root username timeout)
    (configs.flatMap ld)

/-! ## Session creation (`AgentManager.create_session`) -/

/-- Exceptions escaping `create_session`: `valueError` covers the
explicitly raised `ValueError`s (empty credential/model validation and the
wrapped agent-build failure); `uncaught` covers any other exception
propagating out of tool provisioning. -/
inductive CreateErr where
  | valueError (msg : String)
  | uncaught (msg : String)
deriving DecidableEq, Repr

/-- The replacement prefix of `create_session`
(`if username in self.sessions: self.close_session(username)`). -/
def close_existing (m : AgentManager) (username : String) : AgentManager :=
  if containsS username m.sessions then close_session m username else m

/-- `AgentManager.create_session`.  `bd` stands for the external agent
constructor (`_create_agent_for_user`, i.e. model-client plus toolset
binding); it either succeeds or fails with a message.  The manager state
is returned alongside the outcome because the Python method mutates
`self` before it can raise (closing the prior session, overwriting
`self.workspace_root` and `self.mcp_configs`). -/
def create_session (ld : String → List MCPSpec)
    (bd : AgentConfig → List MCPSpec → Except String Unit)
    (now : Nat) (m : AgentManager) (username : String) (agent_config : AgentConfig) :
    AgentManager × Except CreateErr UserSession :=
  let m := close_existing m username
  if agent_config.api_key = "" then
    (m, Except.error (CreateErr.valueError "API密钥不能为空"))
  else if agent_config.model_name = "" then
    (m, Except.error (CreateErr.valueError "模型名称不能为空"))
  else
    let m := { m with workspace_root := some agent_config.workspace_root,
                      mcp_configs := agent_config.mcp_configs }
    match load_mcp_server ld m username m.mcp_configs 100 with
    | Except.error e => (m, Except.error (CreateErr.uncaught e))
    | Except.ok mcp_server =>
      match bd agent_config mcp_server with
      | Except.error e =>
          (m, Except.error (CreateErr.valueError ("创建智能体失败: " ++ e)))
      | Except.ok _ =>
        let session : UserSession :=
          { username := username
            agent_config := agent_config
            agentOk := true
            last_active := now
            is_active := true
            history_context := [] }
        ({ m with sessions := insertS username session m.sessions }, Except.ok session)

/-! ## HTTP endpoint layer (`main.py`) -/

/-- The `/login` request body. -/
structure UserLogin where
  username : String
  password : String
  model_name : String
  api_key : String
  base_url : Option String
  system_prompt : String
deriving DecidableEq, Repr

/-- Outcome of the `/login` endpoint: HTTP 400, HTTP 500, or the 200
success body (`session_created: true`). -/
inductive LoginResponse where
  | http400 (detail : String)
  | http500 (detail : String)
  | success (username : String)
deriving DecidableEq, Repr

/-- The two base toolset configuration sources handed to every user. -/
def base_mcp_configs : List String :=
  ["./config/mcp_config_base.json", "./config/mcp_config_office.json"]

/-- The extra toolset configuration source appended for `admin`. -/
def map_mcp_config : String := "./config/mcp_config_map.json"

/-- The toolset source list assembled inside `login`: the two base
sources, plus the map source appended when the username is `admin`. -/
def login_mcp_configs (username : String) : List String :=
  if username = "admin" then base_mcp_configs ++ [map_mcp_config] else base_mcp_configs

/-- The `AgentConfig` record `login` builds from the request fields, the
absolute workspace root, and the per-username toolset source list. -/
def login_agent_config (user : UserLogin) (wsRoot : String) : AgentConfig :=
  { model_name := user.model_name
    api_key := user.api_key
    base_url := user.base_url
    system_prompt := user.system_prompt
    workspace_root := wsRoot
    mcp_configs := login_mcp_configs user.username }

/-- The `/login` endpoint.  `dbOk` models `validater.connect_db()`
succeeding, `validate` models `validater.validate_login` returning the
`(pass_usr, pass_pwd)` pair, `wsRoot` models
`os.path.abspath('../workspace')`. -/
def login (ld : String → List MCPSpec)
    (bd : AgentConfig → List MCPSpec → Except String Unit)
    (dbOk : Bool) (validate : String → String → Bool × Bool)
    (now : Nat) (wsRoot : String)
    (m : AgentManager) (user : UserLogin) : AgentManager × LoginResponse :=
  if user.username = "" then (m, LoginResponse.http400 "用户名不能为空")
  else
    let validation_errors :=
      (if user.model_name = "" then ["模型名称"] else []) ++
      (if user.api_key = "" then ["API密钥"] else []) ++
      (if user.system_prompt = "" then ["系统提示词"] else [])
    if validation_errors ≠ [] then
      (m, LoginResponse.http400 ("以下字段不能为空: " ++ String.intercalate ", " validation_errors))
    else if dbOk = false then
      (m, LoginResponse.http500 "连接数据库失败，请与管理员联系")
    else
      match validate user.username user.password with
      | (false, _) => (m, LoginResponse.http400 "用户名不存在，请与管理员联系")
      | (true, false) => (m, LoginResponse.http400 "密码错误，请与管理员联系")
      | (true, true) =>
        let m :=
          match get_session m user.username with
          | some existing => if existing.is_active then close_session m user.username else m
          | none => m
        match create_session ld bd now m user.username (login_agent_config user wsRoot) with
        | (m, Except.ok _) => (m, LoginResponse.success user.username)
        | (m, Except.error (CreateErr.valueError e)) => (m, LoginResponse.http400 e)
        | (m, Except.error (CreateErr.uncaught e)) =>
            (m, LoginResponse.http500 ("创建会话失败: " ++ e))

/-- The `/logout/{username}` endpoint: always closes (idempotently) and
always answers with the success message. -/
def logout (m : AgentManager) (username : String) : AgentManager × String :=
  (close_session m username, "用户 " ++ username ++ " 已登出")

/-- Outcome of the `/chat` endpoint: 404 when no session exists, 500 when
the agent handle is missing, 500 with the wrapped backend message on a
backend failure, 200 with the response text on success. -/
inductive ChatResult where
  | notFound
  | agentNotInit
  | ok (response : String)
  | backendError (detail : String)
deriving DecidableEq, Repr

/-- An in-flight chat turn, suspended at `await session.agent.run(...)`:
the username, the message, and the history snapshot the handler passed to
the backend (`message_history=session.history_context`, read before the
await). -/
structure PendingChat where
  username : String
  message : String
  readHistory : List Msg
deriving DecidableEq, Repr

/-- What the synchronous prefix of the `/chat` handler produced: either an
early HTTP error, or a suspended turn. -/
inductive BeginResult where
  | err (r : ChatResult)
  | pending (p : PendingChat)
deriving DecidableEq, Repr

/-- The synchronous prefix of the `/chat` handler, everything before the
`await`: session lookup (404 if absent), agent-handle check (500 if
missing), `update_last_active`, and the capture of the history snapshot
handed to the backend. -/
def chat_begin (now : Nat) (m : AgentManager) (username message : String) :
    AgentManager × BeginResult :=
  match get_session m username with
  | none => (m, BeginResult.err ChatResult.notFound)
  | some session =>
    if session.agentOk = false then (m, BeginResult.err ChatResult.agentNotInit)
    else
      let m := update_last_active m username now
      (m, BeginResult.pending
        { username := username, message := message, readHistory := session.history_context })

/-- The continuation of the `/chat` handler after the backend returns:
on success, `session.history_context = list(result.all_messages())`
(written through to the session registered under the username) and the
textual output is returned; on failure the `except` branch reports the
wrapped error and writes nothing. -/
def chat_finish (m : AgentManager) (p : PendingChat)
    (res : Except String (List Msg × String)) : AgentManager × ChatResult :=
  match res with
  | Except.ok (msgs, output) =>
      ({ m with sessions := updateS p.username (fun s => { s with history_context := msgs }) m.sessions },
       ChatResult.ok output)
  | Except.error e => (m, ChatResult.backendError ("智能体处理错误: " ++ e))

/-- The whole `/chat` handler, run without interleaving: the synchronous
prefix, then the backend call `runAgent history message` (the black-box
`agent.run`, returning the full post-turn message list and the output
text, or failing), then the continuation. -/
def chat (runAgent : List Msg → String → Except String (List Msg × String))
    (now : Nat) (m : AgentManager) (username message : String) : AgentManager × ChatResult :=
  match chat_begin now m username message with
  | (m, BeginResult.err r) => (m, r)
  | (m, BeginResult.pending p) => chat_finish m p (runAgent p.readHistory p.message)

/-! ## Session-map lemmas -/

theorem lookupS_cons (v k : String) (s : UserSession) (tl : SessionMap) :
    lookupS v ((k, s) :: tl) = if k = v then some s else lookupS v tl := rfl

theorem lookupS_eraseS (v u : String) (l : SessionMap) :
    lookupS v (eraseS u l) = if v = u then none else lookupS v l := by
  induction l with
  | nil => simp [lookupS, eraseS]
  | cons hd tl ih =>
    obtain ⟨k, s⟩ := hd
    by_cases hk : k = u
    · have he : eraseS u ((k, s) :: tl) = eraseS u tl := by
        simp [eraseS, hk]
      rw [he, ih, lookupS_cons]
      by_cases hv : v = u
      · simp [hv]
      · have hkv : ¬ k = v := by
          intro h
          exact hv (h ▸ hk)
        simp [hv, hkv]
    · have he : eraseS u ((k, s) :: tl) = (k, s) :: eraseS u tl := by
        simp [eraseS, hk]
      rw [he, lookupS_cons, lookupS_cons, ih]
      by_cases hkv : k = v
      · have hv : ¬ v = u := by
          intro h
          exact hk (hkv.trans h)
        simp [hkv, hv]
      · simp [hkv]

theorem lookupS_updateS (v u : String) (f : UserSession → UserSession) (l : SessionMap) :
    lookupS v (updateS u f l) = if v = u then (lookupS u l).map f else lookupS v l := by
  induction l with
  | nil => simp [lookupS, updateS]
  | cons hd tl ih =>
    obtain ⟨k, s⟩ := hd
    by_cases hk : k = u
    · have he : updateS u f ((k, s) :: tl) = (k, f s) :: updateS u f tl := by
        simp [updateS, hk]
      rw [he, lookupS_cons, lookupS_cons, lookupS_cons, ih]
      by_cases hkv : k = v
      · have hv : v = u := hkv ▸ hk
        simp [hkv, hv, hk]
      · by_cases hv : v = u
        · simp [hkv, hv, hk]
        · simp [hkv, hv]
    · have he : updateS u f ((k, s) :: tl) = (k, s) :: updateS u f tl := by
        simp [updateS, hk]
      rw [he, lookupS_cons, lookupS_cons, ih]
      by_cases hkv : k = v
      · have hv : ¬ v = u := by
          intro h
          exact hk (hkv.trans h)
        simp [hkv, hv, lookupS_cons]
      · by_cases hv : v = u
        · simp [hkv, hv, hv ▸ hkv, lookupS_cons]
        · simp [hkv, hv, lookupS_cons]

theorem lookupS_append (u : String) (l₁ l₂ : SessionMap) :
    lookupS u (l₁ ++ l₂) =
      match lookupS u l₁ with
      | some s => some s
      | none => lookupS u l₂ := by
  induction l₁ with
  | nil => simp [lookupS]
  | cons hd tl ih =>
    obtain ⟨k, s⟩ := hd
    by_cases hk : k = u <;> simp [lookupS_cons, hk, ih, List.cons_append]

theorem lookupS_insertS (v u : String) (s : UserSession) (l : SessionMap) :
    lookupS v (insertS u s l) = if v = u then some s else lookupS v l := by
  unfold insertS containsS
  by_cases hc : (lookupS u l).isSome
  · simp only [hc, if_true]
    rw [lookupS_updateS]
    by_cases hv : v = u
    · subst hv
      obtain ⟨s₀, hs₀⟩ := Option.isSome_iff_exists.mp hc
      simp [hs₀]
    · simp [hv]
  · simp only [hc, Bool.false_eq_true, if_false]
    rw [lookupS_append]
    by_cases hv : v = u
    · subst hv
      have hn : lookupS v l = none := Option.not_isSome_iff_eq_none.mp (by simpa using hc)
      simp [hn, lookupS_cons]
    · have huv : ¬ u = v := fun h => hv h.symm
      cases h : lookupS v l with
      | some s₀ => simp [h, hv]
      | none => simp [h, lookupS_cons, hv, huv, lookupS]

/-! ## Manager-operation lemmas -/

theorem get_session_close (m : AgentManager) (u v : String) :
    get_session (close_session m u) v = if v = u then none else get_session m v := by
  unfold close_session get_session
  by_cases hc : containsS u m.sessions
  · simp only [hc, if_true]
    exact lookupS_eraseS v u m.sessions
  · simp only [hc, if_false]
    by_cases hv : v = u
    · subst hv
      simp only [if_pos rfl]
      unfold containsS at hc
      exact Option.not_isSome_iff_eq_none.mp (by simpa using hc)
    · simp [hv]

theorem close_frame (m : AgentManager) (u : String) :
    (close_session m u).filesystem_mcp_name = m.filesystem_mcp_name ∧
    (close_session m u).workspace_root = m.workspace_root ∧
    (close_session m u).mcp_configs = m.mcp_configs := by
  unfold close_session
  by_cases hc : containsS u m.sessions <;> simp [hc]

theorem get_session_touch (m : AgentManager) (u v : String) (now : Nat) :
    get_session (update_last_active m u now) v =
      if v = u then (get_session m u).map (fun s => { s with last_active := now })
      else get_session m v := by
  unfold update_last_active get_session
  by_cases hc : containsS u m.sessions
  · simp only [hc, if_true]
    exact lookupS_updateS v u _ m.sessions
  · simp only [hc, if_false]
    by_cases hv : v = u
    · subst hv
      unfold containsS at hc
      have : lookupS v m.sessions = none := Option.not_isSome_iff_eq_none.mp (by simpa using hc)
      simp [this]
    · simp [hv]

theorem touch_frame (m : AgentManager) (u : String) (now : Nat) :
    (update_last_active m u now).filesystem_mcp_name = m.filesystem_mcp_name ∧
    (update_last_active m u now).workspace_root = m.workspace_root ∧
    (update_last_active m u now).mcp_configs = m.mcp_configs := by
  unfold update_last_active
  by_cases hc : containsS u m.sessions <;> simp [hc]

theorem get_session_foldl_close (ks : List String) (m : AgentManager) (v : String) :
    get_session (ks.foldl close_session m) v =
      if v ∈ ks then none else get_session m v := by
  induction ks generalizing m with
  | nil => simp
  | cons k ks ih =>
    rw [List.foldl_cons, ih]
    by_cases hks : v ∈ ks
    · simp [hks]
    · rw [get_session_close]
      by_cases hvk : v = k
      · simp [hvk, hks]
      · simp [hvk, hks, List.mem_cons]

/-! ## Lookup under key-uniqueness (Python dicts cannot hold a key twice) -/

theorem value_eq_of_mem_nodup (u : String) (s : UserSession) :
    ∀ (l : SessionMap), (l.map Prod.fst).Nodup → lookupS u l = some s →
      ∀ p ∈ l, p.1 = u → p.2 = s := by
  intro l
  induction l with
  | nil =>
    intro _ _ p hp
    simp at hp
  | cons hd tl ih =>
    obtain ⟨k, t⟩ := hd
    intro hnd hl p hp hpu
    simp only [List.map_cons, List.nodup_cons] at hnd
    rcases List.mem_cons.mp hp with hph | hptl
    · subst hph
      simp only at hpu
      subst hpu
      rw [lookupS_cons, if_pos rfl] at hl
      exact Option.some.inj hl
    · by_cases hk : k = u
      · exfalso
        apply hnd.1
        rw [hk, ← hpu]
        exact List.mem_map.mpr ⟨p, hptl, rfl⟩
      · rw [lookupS_cons, if_neg hk] at hl
        exact ih hnd.2 hl p hptl hpu

theorem mem_of_lookupS (l : SessionMap) (u : String) (s : UserSession)
    (hl : lookupS u l = some s) : (u, s) ∈ l := by
  induction l with
  | nil => simp [lookupS] at hl
  | cons hd tl ih =>
    obtain ⟨k, t⟩ := hd
    rw [lookupS_cons] at hl
    by_cases hk : k = u
    · rw [if_pos hk] at hl
      subst hk
      exact List.mem_cons.mpr (Or.inl (by rw [Option.some.inj hl]))
    · rw [if_neg hk] at hl
      exact List.mem_cons.mpr (Or.inr (ih hl))

/-! ## stampLoop lemmas -/

theorem stampLoop_ok_of_forall (f : MCPSpec → Except String MCPSpec) (g : MCPSpec → MCPSpec)
    (l : List MCPSpec) (h : ∀ sp ∈ l, f sp = Except.ok (g sp)) :
    stampLoop f l = Except.ok (l.map g) := by
  induction l with
  | nil => rfl
  | cons sp rest ih =>
    have hsp : f sp = Except.ok (g sp) := h sp (List.mem_cons_self sp rest)
    have hrest : stampLoop f rest = Except.ok (rest.map g) :=
      ih (fun x hx => h x (List.mem_cons_of_mem sp hx))
    simp [stampLoop, hsp, hrest]

theorem stampLoop_ok_length (f : MCPSpec → Except String MCPSpec)
    (l : List MCPSpec) (ys : List MCPSpec) (h : stampLoop f l = Except.ok ys) :
    ys.length = l.length := by
  induction l generalizing ys with
  | nil =>
    simp only [stampLoop] at h
    rw [← Except.ok.inj h]
  | cons sp rest ih =>
    simp only [stampLoop] at h
    cases hsp : f sp with
    | error e => rw [hsp] at h; cases h
    | ok sp₁ =>
      rw [hsp] at h
      cases hrest : stampLoop f rest with
      | error e => rw [hrest] at h; cases h
      | ok rest₁ =>
        rw [hrest] at h
        rw [← Except.ok.inj h]
        simp [ih rest₁ hrest]

/-! ## create_session lemmas -/

/-- The session record a successful `create_session` registers. -/
def freshSession (username : String) (cfg : AgentConfig) (now : Nat) : UserSession :=
  { username := username
    agent_config := cfg
    agentOk := true
    last_active := now
    is_active := true
    history_context := [] }

/-- The outcome component of `create_session`, as a pure function of the
loader, the builder, the (never-mutated) filesystem-tool identifier, the
clock and the config: which error class (if any) escapes, or which
session record is produced. -/
def create_outcome (ld : String → List MCPSpec)
    (bd : AgentConfig → List MCPSpec → Except String Unit)
    (fs : String) (now : Nat) (username : String) (cfg : AgentConfig) :
    Except CreateErr UserSession :=
  if cfg.api_key = "" then Except.error (CreateErr.valueError "API密钥不能为空")
  else if cfg.model_name = "" then Except.error (CreateErr.valueError "模型名称不能为空")
  else
    match stampLoop (rewriteSpec fs (some cfg.workspace_root) username 100)
        (cfg.mcp_configs.flatMap ld) with
    | Except.error e => Except.error (CreateErr.uncaught e)
    | Except.ok specs =>
      match bd cfg specs with
      | Except.error e => Except.error (CreateErr.valueError ("创建智能体失败: " ++ e))
      | Except.ok _ => Except.ok (freshSession username cfg now)

theorem close_existing_spec (m : AgentManager) (username : String) :
    get_session (close_existing m username) username = none ∧
    (∀ v, v ≠ username → get_session (close_existing m username) v = get_session m v) ∧
    (close_existing m username).filesystem_mcp_name = m.filesystem_mcp_name ∧
    (close_existing m username).workspace_root = m.workspace_root ∧
    (close_existing m username).mcp_configs = m.mcp_configs := by
  unfold close_existing
  by_cases hc : containsS username m.sessions
  · rw [if_pos hc]
    obtain ⟨h1, h2, h3⟩ := close_frame m username
    refine ⟨?_, ?_, h1, h2, h3⟩
    · rw [get_session_close, if_pos rfl]
    · intro v hv
      rw [get_session_close, if_neg hv]
  · rw [if_neg hc]
    refine ⟨?_, fun v _ => rfl, rfl, rfl, rfl⟩
    unfold containsS at hc
    unfold get_session
    exact Option.not_isSome_iff_eq_none.mp (by simpa using hc)

theorem create_session_outcome (ld : String → List MCPSpec)
    (bd : AgentConfig → List MCPSpec → Except String Unit)
    (now : Nat) (m : AgentManager) (username : String) (cfg : AgentConfig) :
    (create_session ld bd now m username cfg).2
      = create_outcome ld bd m.filesystem_mcp_name now username cfg := by
  obtain ⟨_, _, hp3, _, _⟩ := close_existing_spec m username
  by_cases h1 : cfg.api_key = ""
  · simp only [create_session, create_outcome, if_pos h1]
  · by_cases h2 : cfg.model_name = ""
    · simp only [create_session, create_outcome, if_neg h1, if_pos h2]
    · simp only [create_session, create_outcome, load_mcp_server, freshSession,
        if_neg h1, if_neg h2, hp3]
      cases hl : stampLoop (rewriteSpec m.filesystem_mcp_name (some cfg.workspace_root)
          username 100) (cfg.mcp_configs.flatMap ld) with
      | error e => simp [hl]
      | ok specs =>
        cases hb : bd cfg specs with
        | error e => simp [hl, hb]
        | ok u0 => simp [hl, hb]

theorem create_session_err_inv (ld : String → List MCPSpec)
    (bd : AgentConfig → List MCPSpec → Except String Unit)
    (now : Nat) (m : AgentManager) (username : String) (cfg : AgentConfig)
    (m' : AgentManager) (e : CreateErr)
    (h : create_session ld bd now m username cfg = (m', Except.error e)) :
    get_session m' username = none ∧
    (∀ v, v ≠ username → get_session m' v = get_session m v) ∧
    m'.filesystem_mcp_name = m.filesystem_mcp_name := by
  obtain ⟨hp1, hp2, hp3, _, _⟩ := close_existing_spec m username
  simp only [create_session] at h
  split at h
  · obtain ⟨h1, h2⟩ := Prod.mk.injEq .. ▸ h
    subst h1
    exact ⟨hp1, hp2, hp3⟩
  · split at h
    · obtain ⟨h1, h2⟩ := Prod.mk.injEq .. ▸ h
      subst h1
      exact ⟨hp1, hp2, hp3⟩
    · split at h
      · obtain ⟨h1, h2⟩ := Prod.mk.injEq .. ▸ h
        subst h1
        exact ⟨hp1, hp2, hp3⟩
      · split at h
        · obtain ⟨h1, h2⟩ := Prod.mk.injEq .. ▸ h
          subst h1
          exact ⟨hp1, hp2, hp3⟩
        · obtain ⟨h1, h2⟩ := Prod.mk.injEq .. ▸ h
          cases h2

theorem create_session_ok_inv (ld : String → List MCPSpec)
    (bd : AgentConfig → List MCPSpec → Except String Unit)
    (now : Nat) (m : AgentManager) (username : String) (cfg : AgentConfig)
    (m' : AgentManager) (s : UserSession)
    (h : create_session ld bd now m username cfg = (m', Except.ok s)) :
    s = freshSession username cfg now ∧
    get_session m' username = some s ∧
    (∀ v, v ≠ username → get_session m' v = get_session m v) ∧
    m'.filesystem_mcp_name = m.filesystem_mcp_name := by
  obtain ⟨hp1, hp2, hp3, _, _⟩ := close_existing_spec m username
  simp only [create_session] at h
  split at h
  · obtain ⟨h1, h2⟩ := Prod.mk.injEq .. ▸ h
    cases h2
  · split at h
    · obtain ⟨h1, h2⟩ := Prod.mk.injEq .. ▸ h
      cases h2
    · split at h
      · obtain ⟨h1, h2⟩ := Prod.mk.injEq .. ▸ h
        cases h2
      · split at h
        · obtain ⟨h1, h2⟩ := Prod.mk.injEq .. ▸ h
          cases h2
        · obtain ⟨h1, h2⟩ := Prod.mk.injEq .. ▸ h
          have hs : s = freshSession username cfg now := by
            rw [← Except.ok.inj h2]
            rfl
          subst h1
          refine ⟨hs, ?_, ?_, hp3⟩
          · show lookupS username (insertS username _ (close_existing m username).sessions) = _
            rw [lookupS_insertS, if_pos rfl, hs]
            rfl
          · intro v hv
            show lookupS v (insertS username _ (close_existing m username).sessions) = _
            rw [lookupS_insertS, if_neg hv]
            exact hp2 v hv

/-! ## chat lemmas -/

theorem chat_eq (runAgent : List Msg → String → Except String (List Msg × String))
    (now : Nat) (m : AgentManager) (username message : String) (s : UserSession)
    (hs : get_session m username = some s) (hok : s.agentOk = true) :
    chat runAgent now m username message =
      chat_finish (update_last_active m username now)
        { username := username, message := message, readHistory := s.history_context }
        (runAgent s.history_context message) := by
  unfold chat chat_begin
  rw [hs]
  simp [hok]

theorem chat_notFound (runAgent : List Msg → String → Except String (List Msg × String))
    (now : Nat) (m : AgentManager) (username message : String)
    (hs : get_session m username = none) :
    chat runAgent now m username message = (m, ChatResult.notFound) := by
  unfold chat chat_begin
  rw [hs]

theorem chat_frame (runAgent : List Msg → String → Except String (List Msg × String))
    (now : Nat) (m : AgentManager) (username message : String) (v : String)
    (hv : v ≠ username) :
    get_session (chat runAgent now m username message).1 v = get_session m v ∧
    (chat runAgent now m username message).1.workspace_root = m.workspace_root ∧
    (chat runAgent now m username message).1.mcp_configs = m.mcp_configs ∧
    (chat runAgent now m username message).1.filesystem_mcp_name = m.filesystem_mcp_name := by
  cases hs : get_session m username with
  | none => rw [chat_notFound runAgent now m username message hs]; exact ⟨rfl, rfl, rfl, rfl⟩
  | some s =>
    by_cases hok : s.agentOk = true
    · rw [chat_eq runAgent now m username message s hs hok]
      obtain ⟨t1, t2, t3⟩ := touch_frame m username now
      cases hr : runAgent s.history_context message with
      | error e =>
        simp only [chat_finish]
        refine ⟨?_, t2, t3, t1⟩
        rw [get_session_touch, if_neg hv]
      | ok pr =>
        obtain ⟨msgs, out⟩ := pr
        simp only [chat_finish]
        refine ⟨?_, t2, t3, t1⟩
        show lookupS v (updateS username
            (fun s => { s with history_context := msgs })
            (update_last_active m username now).sessions) = get_session m v
        rw [lookupS_updateS, if_neg hv]
        have h2 := get_session_touch m username v now
        rw [if_neg hv] at h2
        exact h2
    · unfold chat chat_begin
      rw [hs]
      have hokf : s.agentOk = false := by
        cases hcase : s.agentOk
        · rfl
        · exact absurd hcase hok
      simp [hokf]

/-! ## Concrete scenario material (loaders, builders, backends, configs) -/

/-- A config loader whose every source parses to an empty spec list. -/
def demoLd : String → List MCPSpec := fun _ => []

/-- An agent builder that always succeeds. -/
def demoBdOk : AgentConfig → List MCPSpec → Except String Unit :=
  fun _ _ => Except.ok ()

/-- An agent builder that always fails (model client rejects the credential). -/
def demoBdFail : AgentConfig → List MCPSpec → Except String Unit :=
  fun _ _ => Except.error "invalid api key"

/-- A concrete agent configuration. -/
def demoCfg : AgentConfig :=
  { model_name := "deepseek-chat"
    api_key := "k"
    base_url := none
    system_prompt := "p"
    workspace_root := "/ws"
    mcp_configs := ["./config/a.json"] }

/-- A backend that echoes: appends the user message and an identical
assistant reply to the history it was handed, and returns the message as
the output text. -/
def echoRun : List Msg → String → Except String (List Msg × String) :=
  fun h msg => Except.ok (h ++ [Msg.user msg, Msg.assistant msg], msg)

/-- A backend that always fails. -/
def failRun : List Msg → String → Except String (List Msg × String) :=
  fun _ _ => Except.error "boom"

/-- A manager with one freshly created session for `alice`. -/
def demoManager : AgentManager :=
  (create_session demoLd demoBdOk 5 AgentManager.init "alice" demoCfg).1

/-! ## C9 -/

/-- C9: `close_session` on an absent (hence also on an already-closed)
username leaves the manager unchanged and raises nothing,
`update_last_active` on an absent username is a no-op, and the
`/logout/{username}` endpoint always answers with the logged-out success
message. -/
theorem C9_close_idempotent_touch_absent_safe (m : AgentManager) (u : String) (now : Nat) :
    (logout m u).2 = "用户 " ++ u ++ " 已登出" ∧
    (get_session m u = none →
      close_session m u = m ∧
      update_last_active m u now = m ∧
      logout m u = (m, "用户 " ++ u ++ " 已登出")) := by
  refine ⟨rfl, fun habs => ?_⟩
  have hc : containsS u m.sessions = false := by
    unfold containsS
    unfold get_session at habs
    rw [habs]
    rfl
  have h1 : close_session m u = m := by
    unfold close_session
    rw [hc]
    simp
  refine ⟨h1, ?_, ?_⟩
  · unfold update_last_active
    rw [hc]
    simp
  · unfold logout
    rw [h1]

/-- Witness for C9 at the empty manager and username `alice`. -/
theorem C9_witness :
    close_session AgentManager.init "alice" = AgentManager.init ∧
    update_last_active AgentManager.init "alice" 7 = AgentManager.init ∧
    logout AgentManager.init "alice" = (AgentManager.init, "用户 " ++ "alice" ++ " 已登出") := by
  obtain ⟨_, h2⟩ := C9_close_idempotent_touch_absent_safe AgentManager.init "alice" 7
  exact h2 rfl

/-! ## C7 -/

/-- C7: session creation is all-or-nothing: when `create_session` returns
a session, that session is registered under the username with empty
history, the creation timestamp, the active flag and a live agent handle;
when it returns any error (validation, tool provisioning or agent build),
no session at all is registered for the username afterwards. -/
theorem C7_create_all_or_nothing (ld : String → List MCPSpec)
    (bd : AgentConfig → List MCPSpec → Except String Unit)
    (now : Nat) (m : AgentManager) (username : String) (cfg : AgentConfig)
    (m' : AgentManager) (r : Except CreateErr UserSession)
    (h : create_session ld bd now m username cfg = (m', r)) :
    (∀ s, r = Except.ok s →
      get_session m' username = some s ∧
      s.history_context = [] ∧ s.last_active = now ∧
      s.is_active = true ∧ s.agentOk = true) ∧
    (∀ e, r = Except.error e → get_session m' username = none) := by
  constructor
  · intro s hr
    rw [hr] at h
    obtain ⟨hfresh, hreg, _, _⟩ := create_session_ok_inv ld bd now m username cfg m' s h
    refine ⟨hreg, ?_, ?_, ?_, ?_⟩ <;> rw [hfresh] <;> rfl
  · intro e hr
    rw [hr] at h
    exact (create_session_err_inv ld bd now m username cfg m' e h).1

/-- Witness for C7: a successful creation registers the fresh session;
a failed build (`demoBdFail`) leaves no session registered. -/
theorem C7_witness :
    get_session demoManager "alice" = some (freshSession "alice" demoCfg 5) ∧
    get_session (create_session demoLd demoBdFail 5 AgentManager.init "alice" demoCfg).1 "alice"
      = none := by
  constructor
  · have h := (C7_create_all_or_nothing demoLd demoBdOk 5 AgentManager.init "alice" demoCfg
      (create_session demoLd demoBdOk 5 AgentManager.init "alice" demoCfg).1
      (create_session demoLd demoBdOk 5 AgentManager.init "alice" demoCfg).2 rfl).1
    have hr : (create_session demoLd demoBdOk 5 AgentManager.init "alice" demoCfg).2
        = Except.ok (freshSession "alice" demoCfg 5) := by rfl
    exact (h _ hr).1
  · have h := (C7_create_all_or_nothing demoLd demoBdFail 5 AgentManager.init "alice" demoCfg
      (create_session demoLd demoBdFail 5 AgentManager.init "alice" demoCfg).1
      (create_session demoLd demoBdFail 5 AgentManager.init "alice" demoCfg).2 rfl).2
    have hr : (create_session demoLd demoBdFail 5 AgentManager.init "alice" demoCfg).2
        = Except.error (CreateErr.valueError ("创建智能体失败: " ++ "invalid api key")) := by
      rfl
    exact h _ hr

/-! ## C2 -/

/-- C2: on a chat turn whose backend invocation fails, the stored
session's history is exactly its pre-call value, the session stays in the
store with a live agent (so a later turn with a succeeding backend
works), a backend error is reported, and `last_active` is set to the call
time on the failure path just as on the success path. -/
theorem C2_failed_chat_preserves_history
    (runAgent runAgent2 : List Msg → String → Except String (List Msg × String))
    (now now2 : Nat) (m : AgentManager) (username message message2 : String)
    (s : UserSession)
    (hs : get_session m username = some s) (hok : s.agentOk = true) :
    (∀ e, runAgent s.history_context message = Except.error e →
      chat runAgent now m username message
          = (update_last_active m username now,
             ChatResult.backendError ("智能体处理错误: " ++ e)) ∧
      get_session (chat runAgent now m username message).1 username
          = some { s with last_active := now } ∧
      (∀ msgs2 out2, runAgent2 s.history_context message2 = Except.ok (msgs2, out2) →
        (chat runAgent2 now2 (chat runAgent now m username message).1 username message2).2
            = ChatResult.ok out2)) ∧
    (∀ msgs out, runAgent s.history_context message = Except.ok (msgs, out) →
      (chat runAgent now m username message).2 = ChatResult.ok out ∧
      get_session (chat runAgent now m username message).1 username
          = some { s with last_active := now, history_context := msgs }) := by
  have htouch : get_session (update_last_active m username now) username
      = some { s with last_active := now } := by
    rw [get_session_touch, if_pos rfl, hs]
    rfl
  constructor
  · intro e he
    have hchat : chat runAgent now m username message
        = (update_last_active m username now,
           ChatResult.backendError ("智能体处理错误: " ++ e)) := by
      rw [chat_eq runAgent now m username message s hs hok, he]
      rfl
    refine ⟨hchat, ?_, ?_⟩
    · rw [hchat]
      exact htouch
    · intro msgs2 out2 h2
      rw [hchat]
      have hok2 : ({ s with last_active := now } : UserSession).agentOk = true := hok
      rw [chat_eq runAgent2 now2 (update_last_active m username now) username message2
          { s with last_active := now } htouch hok2]
      have h2x : runAgent2 ({ s with last_active := now } : UserSession).history_context message2
          = Except.ok (msgs2, out2) := h2
      rw [h2x]
      rfl
  · intro msgs out hrun
    have hchat : chat runAgent now m username message
        = ({ update_last_active m username now with
              sessions := updateS username (fun t => { t with history_context := msgs })
                (update_last_active m username now).sessions },
           ChatResult.ok out) := by
      rw [chat_eq runAgent now m username message s hs hok, hrun]
      rfl
    constructor
    · rw [hchat]
    · rw [hchat]
      show lookupS username (updateS username (fun t => { t with history_context := msgs })
          (update_last_active m username now).sessions) = _
      rw [lookupS_updateS, if_pos rfl]
      have ht : lookupS username (update_last_active m username now).sessions
          = some { s with last_active := now } := htouch
      rw [ht]
      rfl

/-- Witness for C2 at the one-session demo manager: a failing backend
reports the wrapped error, leaves the empty history in place, bumps
`last_active` to 9, and a follow-up echo turn succeeds. -/
theorem C2_witness :
    (chat failRun 9 demoManager "alice" "hi").2
        = ChatResult.backendError ("智能体处理错误: " ++ "boom") ∧
    get_session (chat failRun 9 demoManager "alice" "hi").1 "alice"
        = some { freshSession "alice" demoCfg 5 with last_active := 9 } ∧
    (chat echoRun 11 (chat failRun 9 demoManager "alice" "hi").1 "alice" "yo").2
        = ChatResult.ok "yo" := by
  have h := (C2_failed_chat_preserves_history failRun echoRun 9 11 demoManager
    "alice" "hi" "yo" (freshSession "alice" demoCfg 5) (by rfl) (by rfl)).1
  obtain ⟨h1, h2, h3⟩ := h "boom" (by rfl)
  exact ⟨by rw [h1], h2, h3 [Msg.user "yo", Msg.assistant "yo"] "yo" (by rfl)⟩

/-! ## C4 -/

/-- C4: the idle sweep closes exactly the sessions whose age
`now - last_active` is strictly greater than the threshold: a strictly
older session is removed and its next chat call answers SessionNotFound,
while a session with age at most the threshold survives with its record
unchanged. -/
theorem C4_reap_exact (m : AgentManager) (now T : Nat) (u : String) (s : UserSession)
    (runAgent : List Msg → String → Except String (List Msg × String))
    (now2 : Nat) (message : String)
    (hnd : (m.sessions.map Prod.fst).Nodup)
    (hs : get_session m u = some s) :
    (T < now - s.last_active →
      get_session (cleanup_inactive_sessions m now T) u = none ∧
      chat runAgent now2 (cleanup_inactive_sessions m now T) u message
        = (cleanup_inactive_sessions m now T, ChatResult.notFound)) ∧
    (now - s.last_active ≤ T →
      get_session (cleanup_inactive_sessions m now T) u = some s) := by
  have hmem : u ∈ (m.sessions.filter (fun p => T < now - p.2.last_active)).map (fun p => p.1)
      ↔ T < now - s.last_active := by
    constructor
    · intro hu
      obtain ⟨p, hp, hpu⟩ := List.mem_map.mp hu
      obtain ⟨hpl, hpc⟩ := List.mem_filter.mp hp
      have hval := value_eq_of_mem_nodup u s m.sessions hnd hs p hpl hpu
      rw [← hval]
      exact of_decide_eq_true hpc
    · intro hT
      apply List.mem_map.mpr
      refine ⟨(u, s), ?_, rfl⟩
      apply List.mem_filter.mpr
      exact ⟨mem_of_lookupS m.sessions u s hs, decide_eq_true hT⟩
  have hfold : get_session (cleanup_inactive_sessions m now T) u =
      if u ∈ (m.sessions.filter (fun p => T < now - p.2.last_active)).map (fun p => p.1)
      then none else get_session m u := by
    unfold cleanup_inactive_sessions
    exact get_session_foldl_close _ m u
  constructor
  · intro hT
    have h1 : get_session (cleanup_inactive_sessions m now T) u = none := by
      rw [hfold, if_pos (hmem.mpr hT)]
    exact ⟨h1, chat_notFound runAgent now2 _ u message h1⟩
  · intro hT
    have hnotin : u ∉ (m.sessions.filter (fun p => T < now - p.2.last_active)).map (fun p => p.1) :=
      fun hu => absurd (hmem.mp hu) (not_lt.mpr hT)
    rw [hfold, if_neg hnotin]
    exact hs

/-- A two-session store for the reaping scenario: at sweep time 100 with
threshold 10, `alice` (idle 50) is strictly over the threshold and `bob`
(idle 5) is under it. -/
def reapDemo : AgentManager :=
  { sessions := [("alice", freshSession "alice" demoCfg 50),
                 ("bob", freshSession "bob" demoCfg 95)]
    filesystem_mcp_name := "@modelcontextprotocol/server-filesystem"
    workspace_root := none
    mcp_configs := [] }

/-- Witness for C4 on the two-session store. -/
theorem C4_witness :
    get_session (cleanup_inactive_sessions reapDemo 100 10) "alice" = none ∧
    (chat echoRun 101 (cleanup_inactive_sessions reapDemo 100 10) "alice" "hi").2
        = ChatResult.notFound ∧
    get_session (cleanup_inactive_sessions reapDemo 100 10) "bob"
        = some (freshSession "bob" demoCfg 95) := by
  have hA := C4_reap_exact reapDemo 100 10 "alice" (freshSession "alice" demoCfg 50)
    echoRun 101 "hi" (by decide) (by rfl)
  have hB := C4_reap_exact reapDemo 100 10 "bob" (freshSession "bob" demoCfg 95)
    echoRun 101 "hi" (by decide) (by rfl)
  obtain ⟨h1, h2⟩ := hA.1 (by decide)
  exact ⟨h1, by rw [h2], hB.2 (by decide)⟩

/-! ## C5 -/

/-- The per-spec transformation the specification describes for
provisioning: the uniform timeout is stamped onto every spec, and any
spec whose command descriptor's second argument is the filesystem-tool
identifier additionally has its third argument rewritten to the per-user
sandbox path `{root}/workspace_{username}`. -/
def specStamp (fs root username : String) (timeout : Nat) (sp : MCPSpec) : MCPSpec :=
  if sp.has_args = true ∧ 1 < sp.args.length ∧ sp.args.getD 1 "" = fs then
    { sp with args := sp.args.set 2 (root ++ "/workspace_" ++ username), timeout := timeout }
  else { sp with timeout := timeout }

/-- C5: provisioning returns the per-source spec lists concatenated in
source order with no deduplication (the result maps over the
concatenation element-wise, so its length is the sum of the sources'
lengths), each filesystem-tool spec rewritten to the per-user sandbox
path and every spec stamped with the uniform timeout.  The hypotheses
record that the manager's workspace root is set (as `create_session`
always does before calling) and that each filesystem-tool spec actually
has a third argument (otherwise the Python raises `IndexError`). -/
theorem C5_provision_flatten_rewrite_stamp (ld : String → List MCPSpec) (m : AgentManager)
    (root username : String) (configs : List String) (timeout : Nat)
    (hroot : m.workspace_root = some root)
    (hwf : ∀ sp ∈ configs.flatMap ld,
      (sp.has_args = true ∧ 1 < sp.args.length ∧ sp.args.getD 1 "" = m.filesystem_mcp_name) →
      2 < sp.args.length) :
    load_mcp_server ld m username configs timeout
      = Except.ok ((configs.flatMap ld).map
          (specStamp m.filesystem_mcp_name root username timeout)) ∧
    ((configs.flatMap ld).map
        (specStamp m.filesystem_mcp_name root username timeout)).length
      = (configs.map (fun c => (ld c).length)).sum := by
  constructor
  · unfold load_mcp_server
    rw [hroot]
    apply stampLoop_ok_of_forall
    intro sp hsp
    unfold rewriteSpec specStamp
    by_cases hm : sp.has_args = true ∧ 1 < sp.args.length ∧
        sp.args.getD 1 "" = m.filesystem_mcp_name
    · simp only [if_pos hm]
      simp only [if_pos (hwf sp hsp hm)]
    · simp only [if_neg hm]
  · rw [List.length_map]
    clear hwf hroot
    induction configs with
    | nil => rfl
    | cons c cs ih =>
      rw [List.flatMap_cons, List.length_append, List.map_cons, List.sum_cons, ih]

/-- A loader for the C5 witness: source `a` holds one filesystem-tool
spec (three arguments) and one plain spec, source `b` holds a duplicate
of the plain spec. -/
def c5Ld : String → List MCPSpec := fun c =>
  if c = "a" then
    [{ has_args := true, args := ["npx", "@modelcontextprotocol/server-filesystem", "/old"],
       timeout := 0 },
     { has_args := true, args := ["npx", "other-tool"], timeout := 0 }]
  else if c = "b" then
    [{ has_args := true, args := ["npx", "other-tool"], timeout := 0 }]
  else []

/-- A manager whose workspace root has been staged, as `create_session`
does before provisioning. -/
def c5Manager : AgentManager := { AgentManager.init with workspace_root := some "/root" }

/-- Witness for C5: the filesystem spec's third argument becomes the
sandbox path, the duplicated plain specs both survive in order, and every
spec carries the stamped timeout. -/
theorem C5_witness :
    load_mcp_server c5Ld c5Manager "alice" ["a", "b"] 100
      = Except.ok
        [{ has_args := true,
           args := ["npx", "@modelcontextprotocol/server-filesystem",
                    "/root" ++ "/workspace_" ++ "alice"], timeout := 100 },
         { has_args := true, args := ["npx", "other-tool"], timeout := 100 },
         { has_args := true, args := ["npx", "other-tool"], timeout := 100 }] := by
  have h := C5_provision_flatten_rewrite_stamp c5Ld c5Manager "/root" "alice" ["a", "b"] 100
    (by rfl) (by decide)
  rw [h.1]
  rfl

/-! ## C10 -/

/-- C10: `/login` assembles the two base toolset sources for every user
and appends the map source exactly for the username `admin`, so, whenever
provisioning succeeds for both an admin and a non-admin login, the admin
toolset list is longer by exactly the map source's spec count — strictly
longer whenever that source contributes at least one spec. -/
theorem C10_admin_extra_toolset_source (u : String) (hu : u ≠ "admin")
    (ld : String → List MCPSpec) (ma mu : AgentManager) (t : Nat)
    (la lu : List MCPSpec)
    (ha : load_mcp_server ld ma "admin" (login_mcp_configs "admin") t = Except.ok la)
    (hb : load_mcp_server ld mu u (login_mcp_configs u) t = Except.ok lu) :
    login_mcp_configs "admin" = base_mcp_configs ++ [map_mcp_config] ∧
    login_mcp_configs u = base_mcp_configs ∧
    (login_mcp_configs "admin").length = (login_mcp_configs u).length + 1 ∧
    la.length = lu.length + (ld map_mcp_config).length ∧
    ((ld map_mcp_config).length ≠ 0 → lu.length < la.length) := by
  have h1 : login_mcp_configs "admin" = base_mcp_configs ++ [map_mcp_config] := by
    unfold login_mcp_configs
    rw [if_pos rfl]
  have h2 : login_mcp_configs u = base_mcp_configs := by
    unfold login_mcp_configs
    rw [if_neg hu]
  unfold load_mcp_server at ha hb
  have hla := stampLoop_ok_length _ _ _ ha
  have hlb := stampLoop_ok_length _ _ _ hb
  rw [h1] at hla
  rw [h2] at hlb
  rw [List.flatMap_append] at hla
  have hmap : ([map_mcp_config].flatMap ld).length = (ld map_mcp_config).length := by
    simp
  rw [List.length_append, hmap] at hla
  have hlen : la.length = lu.length + (ld map_mcp_config).length := by
    rw [hla, hlb]
  refine ⟨h1, h2, by rw [h1, h2, List.length_append]; rfl, hlen, fun hne => ?_⟩
  rw [hlen]
  omega

/-- A loader for the C10 witness: the map source holds one spec, every
other source none. -/
def c10Ld : String → List MCPSpec := fun c =>
  if c = map_mcp_config then
    [{ has_args := true, args := ["npx", "some-map-tool"], timeout := 0 }]
  else []

/-- Witness for C10 with the one-spec map source: the admin toolset has
one spec, the non-admin toolset none. -/
theorem C10_witness :
    ∃ la lu : List MCPSpec,
      load_mcp_server c10Ld AgentManager.init "admin" (login_mcp_configs "admin") 100
        = Except.ok la ∧
      load_mcp_server c10Ld AgentManager.init "bob" (login_mcp_configs "bob") 100
        = Except.ok lu ∧
      la.length = lu.length + (c10Ld map_mcp_config).length ∧
      lu.length < la.length := by
  refine ⟨[{ has_args := true, args := ["npx", "some-map-tool"], timeout := 100 }], [],
    by rfl, by rfl, ?_, ?_⟩
  · have h := C10_admin_extra_toolset_source "bob" (by decide) c10Ld
      AgentManager.init AgentManager.init 100
      [{ has_args := true, args := ["npx", "some-map-tool"], timeout := 100 }] []
      (by rfl) (by rfl)
    exact h.2.2.2.1
  · have h := C10_admin_extra_toolset_source "bob" (by decide) c10Ld
      AgentManager.init AgentManager.init 100
      [{ has_args := true, args := ["npx", "some-map-tool"], timeout := 100 }] []
      (by rfl) (by rfl)
    exact h.2.2.2.2 (by decide)

/-! ## C1 -/

/-- The `/login` request body used in concrete login scenarios. -/
def demoUserLogin : UserLogin :=
  { username := "alice"
    password := "pw"
    model_name := "deepseek-chat"
    api_key := "k"
    base_url := none
    system_prompt := "hi" }

/-- An authenticator that accepts every username/password pair. -/
def authOk : String → String → Bool × Bool := fun _ _ => (true, true)

/-- C1 counterexample: chat requests carry only a username, so after a
second login for `alice` a subsequent chat call issued on behalf of the
displaced first session is simply a chat call for `alice`: it is served
successfully by the replacement session instead of failing with
SessionNotFound. -/
theorem C1_counterexample :
    (chat echoRun 30
      (login demoLd demoBdOk true authOk 20 "/ws"
        (login demoLd demoBdOk true authOk 10 "/ws" AgentManager.init demoUserLogin).1
        demoUserLogin).1
      "alice" "hello").2 = ChatResult.ok "hello" ∧
    (chat echoRun 30
      (login demoLd demoBdOk true authOk 20 "/ws"
        (login demoLd demoBdOk true authOk 10 "/ws" AgentManager.init demoUserLogin).1
        demoUserLogin).1
      "alice" "hello").2 ≠ ChatResult.notFound := by
  constructor
  · rfl
  · intro h
    cases h.symm.trans (rfl : (chat echoRun 30
      (login demoLd demoBdOk true authOk 20 "/ws"
        (login demoLd demoBdOk true authOk 10 "/ws" AgentManager.init demoUserLogin).1
        demoUserLogin).1
      "alice" "hello").2 = ChatResult.ok "hello")

/-- C1 amended: a second successful login for a username replaces the
session — the old session is closed and a fresh one (empty history, new
timestamp) is registered under the username — and subsequent chat calls
for that username are dispatched to the replacement session: they succeed
whenever its backend call succeeds.  SessionNotFound arises exactly when
no session is registered for the username (the displaced caller itself
never observes it while the replacement session is alive, because chat is
keyed by username alone). -/
theorem C1_second_login_replaces (ld : String → List MCPSpec)
    (bd : AgentConfig → List MCPSpec → Except String Unit)
    (now1 now2 now3 : Nat) (m m1 m2 : AgentManager) (u msg : String)
    (cfg1 cfg2 : AgentConfig) (s1 s2 : UserSession)
    (runAgent : List Msg → String → Except String (List Msg × String))
    (msgs : List Msg) (out : String)
    (h1 : create_session ld bd now1 m u cfg1 = (m1, Except.ok s1))
    (h2 : create_session ld bd now2 m1 u cfg2 = (m2, Except.ok s2))
    (hrun : runAgent [] msg = Except.ok (msgs, out)) :
    get_session m1 u = some s1 ∧
    get_session m2 u = some s2 ∧
    s2 = freshSession u cfg2 now2 ∧
    (chat runAgent now3 m2 u msg).2 = ChatResult.ok out ∧
    (∀ (mx : AgentManager) (ux msgx : String)
        (runx : List Msg → String → Except String (List Msg × String)) (nx : Nat),
      get_session mx ux = none →
      chat runx nx mx ux msgx = (mx, ChatResult.notFound)) := by
  obtain ⟨_, hreg1, _, _⟩ := create_session_ok_inv ld bd now1 m u cfg1 m1 s1 h1
  obtain ⟨hfresh, hreg, _, _⟩ := create_session_ok_inv ld bd now2 m1 u cfg2 m2 s2 h2
  have hok : s2.agentOk = true := by rw [hfresh]; rfl
  have hhist : s2.history_context = [] := by rw [hfresh]; rfl
  refine ⟨hreg1, hreg, hfresh, ?_,
    fun mx ux msgx runx nx hx => chat_notFound runx nx mx ux msgx hx⟩
  rw [chat_eq runAgent now3 m2 u msg s2 hreg hok]
  rw [show runAgent s2.history_context msg = Except.ok (msgs, out) from by rw [hhist]; exact hrun]
  rfl

/-- Witness for C1 amended: the double-creation scenario for `alice`. -/
theorem C1_witness :
    get_session (create_session demoLd demoBdOk 20
        (create_session demoLd demoBdOk 10 AgentManager.init "alice" demoCfg).1
        "alice" demoCfg).1 "alice"
      = some (freshSession "alice" demoCfg 20) ∧
    (chat echoRun 30 (create_session demoLd demoBdOk 20
        (create_session demoLd demoBdOk 10 AgentManager.init "alice" demoCfg).1
        "alice" demoCfg).1 "alice" "hello").2 = ChatResult.ok "hello" := by
  have h := C1_second_login_replaces demoLd demoBdOk 10 20 30
    AgentManager.init
    (create_session demoLd demoBdOk 10 AgentManager.init "alice" demoCfg).1
    (create_session demoLd demoBdOk 20
      (create_session demoLd demoBdOk 10 AgentManager.init "alice" demoCfg).1
      "alice" demoCfg).1
    "alice" "hello" demoCfg demoCfg
    (freshSession "alice" demoCfg 10) (freshSession "alice" demoCfg 20)
    echoRun [Msg.user "hello", Msg.assistant "hello"] "hello"
    (by rfl) (by rfl) (by rfl)
  obtain ⟨_, ha, _, hc, _⟩ := h
  exact ⟨ha.trans (by rfl), hc⟩

/-! ## C3 -/

/-- Once field validation, the DB connection and authentication succeed,
the `/login` answer is a function of the `create_session` outcome:
success gives the 200 body, a `ValueError` gives 400 with its message,
and any other exception gives 500 with the wrapped message. -/
theorem login_outcome (ld : String → List MCPSpec)
    (bd : AgentConfig → List MCPSpec → Except String Unit)
    (validate : String → String → Bool × Bool) (now : Nat) (wsRoot : String)
    (m : AgentManager) (user : UserLogin)
    (hu : user.username ≠ "") (hm : user.model_name ≠ "")
    (hk : user.api_key ≠ "") (hp : user.system_prompt ≠ "")
    (hauth : validate user.username user.password = (true, true)) :
    (login ld bd true validate now wsRoot m user).2 =
      match create_outcome ld bd m.filesystem_mcp_name now user.username
          (login_agent_config user wsRoot) with
      | Except.ok _ => LoginResponse.success user.username
      | Except.error (CreateErr.valueError e) => LoginResponse.http400 e
      | Except.error (CreateErr.uncaught e) =>
          LoginResponse.http500 ("创建会话失败: " ++ e) := by
  have hverr : ((if user.model_name = "" then ["模型名称"] else []) ++
      (if user.api_key = "" then ["API密钥"] else []) ++
      (if user.system_prompt = "" then ["系统提示词"] else [])) = ([] : List String) := by
    rw [if_neg hm, if_neg hk, if_neg hp]
    rfl
  simp only [login, if_neg hu, hverr, hauth]
  simp only [ne_eq, not_true_eq_false, if_false, Bool.true_eq_false]
  have hmain : ∀ m1 : AgentManager, m1.filesystem_mcp_name = m.filesystem_mcp_name →
      (match create_session ld bd now m1 user.username (login_agent_config user wsRoot) with
        | (mr, Except.ok _) => (mr, LoginResponse.success user.username)
        | (mr, Except.error (CreateErr.valueError e)) => (mr, LoginResponse.http400 e)
        | (mr, Except.error (CreateErr.uncaught e)) =>
            (mr, LoginResponse.http500 ("创建会话失败: " ++ e))).2 =
      match create_outcome ld bd m.filesystem_mcp_name now user.username
          (login_agent_config user wsRoot) with
      | Except.ok _ => LoginResponse.success user.username
      | Except.error (CreateErr.valueError e) => LoginResponse.http400 e
      | Except.error (CreateErr.uncaught e) =>
          LoginResponse.http500 ("创建会话失败: " ++ e) := by
    intro m1 hfs
    rcases hcr : create_session ld bd now m1 user.username (login_agent_config user wsRoot)
      with ⟨m2, r⟩
    have hr : r = create_outcome ld bd m.filesystem_mcp_name now user.username
        (login_agent_config user wsRoot) := by
      have hco := create_session_outcome ld bd now m1 user.username
        (login_agent_config user wsRoot)
      rw [hcr, hfs] at hco
      exact hco
    rw [hr]
    cases hco : create_outcome ld bd m.filesystem_mcp_name now user.username
        (login_agent_config user wsRoot) with
    | ok s => rfl
    | error ce => cases ce <;> rfl
  cases hgs : get_session m user.username with
  | none =>
    simp only [hgs]
    exact hmain m rfl
  | some existing =>
    simp only [hgs]
    by_cases hia : existing.is_active = true
    · simp only [hia, if_true]
      exact hmain (close_session m user.username) (close_frame m user.username).1
    · simp only [hia, if_false]
      exact hmain m rfl

/-- C3 counterexample: with every login field present and authentication
passing, an agent-build failure (the builder rejects the
credential/model combination) makes `/login` answer HTTP 400 with the
wrapped build-failure message — not HTTP 500 as the claim states. -/
theorem C3_counterexample :
    (login demoLd demoBdFail true authOk 0 "/ws" AgentManager.init demoUserLogin).2
      = LoginResponse.http400 ("创建智能体失败: " ++ "invalid api key") := by
  rfl

/-- C3 amended: an `AgentBuildError` during session creation is wrapped
into a `ValueError` by `create_session`, so `/login` maps it to HTTP 400
(the same class as missing fields and authentication failure); HTTP 500
is answered for a DB-connection failure and for non-ValueError exceptions
escaping tool provisioning. -/
theorem C3_build_failure_gives_400 (ld : String → List MCPSpec)
    (bd : AgentConfig → List MCPSpec → Except String Unit)
    (validate : String → String → Bool × Bool) (now : Nat) (wsRoot : String)
    (m : AgentManager) (user : UserLogin) (e : String)
    (hu : user.username ≠ "") (hm : user.model_name ≠ "")
    (hk : user.api_key ≠ "") (hp : user.system_prompt ≠ "")
    (hauth : validate user.username user.password = (true, true)) :
    (∀ specs,
      stampLoop (rewriteSpec m.filesystem_mcp_name (some wsRoot) user.username 100)
          ((login_mcp_configs user.username).flatMap ld) = Except.ok specs →
      bd (login_agent_config user wsRoot) specs = Except.error e →
      (login ld bd true validate now wsRoot m user).2
        = LoginResponse.http400 ("创建智能体失败: " ++ e)) ∧
    (stampLoop (rewriteSpec m.filesystem_mcp_name (some wsRoot) user.username 100)
          ((login_mcp_configs user.username).flatMap ld) = Except.error e →
      (login ld bd true validate now wsRoot m user).2
        = LoginResponse.http500 ("创建会话失败: " ++ e)) := by
  have hL := login_outcome ld bd validate now wsRoot m user hu hm hk hp hauth
  constructor
  · intro specs hld hbd
    rw [hL]
    unfold create_outcome
    simp only [login_agent_config] at hbd ⊢
    simp only [if_neg hk, if_neg hm, hld, hbd]
  · intro hld
    rw [hL]
    unfold create_outcome
    simp only [login_agent_config]
    simp only [if_neg hk, if_neg hm, hld]

/-- A loader for the C3 witness's 500 case: a filesystem-tool spec with
only two arguments, on which the third-argument rewrite raises
`IndexError` — a non-ValueError exception out of provisioning. -/
def c3BadLd : String → List MCPSpec := fun _ =>
  [{ has_args := true, args := ["npx", "@modelcontextprotocol/server-filesystem"],
     timeout := 0 }]

/-- Witness for C3 amended: the build failure answers 400; the
provisioning `IndexError` answers 500. -/
theorem C3_witness :
    (login demoLd demoBdFail true authOk 0 "/ws" AgentManager.init demoUserLogin).2
      = LoginResponse.http400 ("创建智能体失败: " ++ "invalid api key") ∧
    (login c3BadLd demoBdOk true authOk 0 "/ws" AgentManager.init demoUserLogin).2
      = LoginResponse.http500
          ("创建会话失败: " ++ "IndexError: list assignment index out of range") := by
  constructor
  · exact (C3_build_failure_gives_400 demoLd demoBdFail authOk 0 "/ws" AgentManager.init
      demoUserLogin "invalid api key" (by decide) (by decide) (by decide) (by decide)
      (by rfl)).1 [] (by rfl) (by rfl)
  · exact (C3_build_failure_gives_400 c3BadLd demoBdOk authOk 0 "/ws" AgentManager.init
      demoUserLogin "IndexError: list assignment index out of range" (by decide) (by decide)
      (by decide) (by decide) (by rfl)).2 (by rfl)

/-! ## C8 -/

theorem create_session_fields (ld : String → List MCPSpec)
    (bd : AgentConfig → List MCPSpec → Except String Unit)
    (now : Nat) (m : AgentManager) (u : String) (cfg : AgentConfig) :
    (create_session ld bd now m u cfg).1.filesystem_mcp_name = m.filesystem_mcp_name ∧
    ((create_session ld bd now m u cfg).1.workspace_root = m.workspace_root ∨
     (create_session ld bd now m u cfg).1.workspace_root = some cfg.workspace_root) ∧
    ((create_session ld bd now m u cfg).1.mcp_configs = m.mcp_configs ∨
     (create_session ld bd now m u cfg).1.mcp_configs = cfg.mcp_configs) := by
  obtain ⟨_, _, hp3, hp4, hp5⟩ := close_existing_spec m u
  simp only [create_session]
  split
  · exact ⟨hp3, Or.inl hp4, Or.inl hp5⟩
  · split
    · exact ⟨hp3, Or.inl hp4, Or.inl hp5⟩
    · split
      · exact ⟨hp3, Or.inr rfl, Or.inr rfl⟩
      · split
        · exact ⟨hp3, Or.inr rfl, Or.inr rfl⟩
        · exact ⟨hp3, Or.inr rfl, Or.inr rfl⟩

/-- C8 counterexample: `create_session` for `alice` overwrites the
manager-level `workspace_root` staging field — state outside the session
map — from `None` to the config's workspace root, so the session map is
not the only manager state an operation for one username modifies. -/
theorem C8_counterexample :
    (create_session demoLd demoBdOk 0 AgentManager.init "alice" demoCfg).1.workspace_root
        = some "/ws" ∧
    AgentManager.init.workspace_root = none := by
  exact ⟨rfl, rfl⟩

/-- C8 amended: chat, close and touch for a username modify nothing
outside that username's session-map entry (every other user's entry and
every manager-level field is preserved); `create_session` preserves every
other user's entry and the filesystem-tool identifier, but additionally
overwrites the manager-level `workspace_root` and `mcp_configs` staging
fields with the values from the given config; those two fields are read
only inside `create_session` after being staged, so no operation for a
different username observes the previous values. -/
theorem C8_frame (m : AgentManager) (u v : String) (now now2 now3 : Nat)
    (runAgent : List Msg → String → Except String (List Msg × String)) (msg : String)
    (ld : String → List MCPSpec) (bd : AgentConfig → List MCPSpec → Except String Unit)
    (cfg : AgentConfig) (hv : v ≠ u) :
    (get_session (close_session m u) v = get_session m v ∧
     (close_session m u).workspace_root = m.workspace_root ∧
     (close_session m u).mcp_configs = m.mcp_configs ∧
     (close_session m u).filesystem_mcp_name = m.filesystem_mcp_name) ∧
    (get_session (update_last_active m u now) v = get_session m v ∧
     (update_last_active m u now).workspace_root = m.workspace_root ∧
     (update_last_active m u now).mcp_configs = m.mcp_configs ∧
     (update_last_active m u now).filesystem_mcp_name = m.filesystem_mcp_name) ∧
    (get_session (chat runAgent now2 m u msg).1 v = get_session m v ∧
     (chat runAgent now2 m u msg).1.workspace_root = m.workspace_root ∧
     (chat runAgent now2 m u msg).1.mcp_configs = m.mcp_configs ∧
     (chat runAgent now2 m u msg).1.filesystem_mcp_name = m.filesystem_mcp_name) ∧
    (get_session (create_session ld bd now3 m u cfg).1 v = get_session m v ∧
     (create_session ld bd now3 m u cfg).1.filesystem_mcp_name = m.filesystem_mcp_name ∧
     ((create_session ld bd now3 m u cfg).1.workspace_root = m.workspace_root ∨
      (create_session ld bd now3 m u cfg).1.workspace_root = some cfg.workspace_root) ∧
     ((create_session ld bd now3 m u cfg).1.mcp_configs = m.mcp_configs ∨
      (create_session ld bd now3 m u cfg).1.mcp_configs = cfg.mcp_configs)) := by
  obtain ⟨c1, c2, c3⟩ := close_frame m u
  obtain ⟨t1, t2, t3⟩ := touch_frame m u now
  obtain ⟨f1, f2, f3, f4⟩ := chat_frame runAgent now2 m u msg v hv
  obtain ⟨g1, g2, g3⟩ := create_session_fields ld bd now3 m u cfg
  refine ⟨⟨?_, c2, c3, c1⟩, ⟨?_, t2, t3, t1⟩, ⟨f1, f2, f3, f4⟩, ⟨?_, g1, g2, g3⟩⟩
  · rw [get_session_close, if_neg hv]
  · rw [get_session_touch, if_neg hv]
  · rcases hcr : create_session ld bd now3 m u cfg with ⟨m2, r⟩
    cases r with
    | ok s =>
      exact (create_session_ok_inv ld bd now3 m u cfg m2 s hcr).2.2.1 v hv
    | error e =>
      exact (create_session_err_inv ld bd now3 m u cfg m2 e hcr).2.1 v hv

/-- Witness for C8 at the demo manager: operations for `alice` leave
`bob` unobserved... the concrete frame facts for a store holding both
users. -/
theorem C8_witness :
    get_session (close_session reapDemo "alice") "bob"
        = some (freshSession "bob" demoCfg 95) ∧
    get_session (update_last_active reapDemo "alice" 77) "bob"
        = some (freshSession "bob" demoCfg 95) ∧
    get_session (chat echoRun 78 reapDemo "alice" "hi").1 "bob"
        = some (freshSession "bob" demoCfg 95) ∧
    get_session (create_session demoLd demoBdOk 79 reapDemo "alice" demoCfg).1 "bob"
        = some (freshSession "bob" demoCfg 95) := by
  have h := C8_frame reapDemo "alice" "bob" 77 78 79 echoRun "hi" demoLd demoBdOk demoCfg
    (by decide)
  obtain ⟨⟨h1, _⟩, ⟨h2, _⟩, ⟨h3, _⟩, ⟨h4, _⟩⟩ := h
  have hbob : get_session reapDemo "bob" = some (freshSession "bob" demoCfg 95) := rfl
  exact ⟨h1.trans hbob, h2.trans hbob, h3.trans hbob, h4.trans hbob⟩

/-! ## C6

The `/chat` handler runs on one event loop and suspends only at
`await session.agent.run(...)`; two in-flight chats for one username may
therefore interleave exactly as `chat_begin`/`chat_finish` pairs.  The
handler acquires no lock of any kind, so the schedule
begin–begin–finish–finish is permitted. -/

/-- Projection of the suspended turn out of a `chat_begin` result (total,
for use in concrete schedules where the begin step is known to succeed). -/
def pendingOf : BeginResult → PendingChat
  | BeginResult.pending p => p
  | BeginResult.err _ => { username := "", message := "", readHistory := [] }

/-- The store after a fresh login of `alice` at time 0. -/
def raceBase : AgentManager :=
  (create_session demoLd demoBdOk 0 AgentManager.init "alice" demoCfg).1

/-- Two chats for `alice` dispatched before either backend call returns:
both `chat_begin` steps run first (each capturing the pre-turn history),
then both `chat_finish` steps write back. -/
def raceStep1 : AgentManager × BeginResult := chat_begin 1 raceBase "alice" "a"

def raceStep2 : AgentManager × BeginResult := chat_begin 2 raceStep1.1 "alice" "b"

def raceFin1 : AgentManager × ChatResult :=
  chat_finish raceStep2.1 (pendingOf raceStep1.2)
    (echoRun (pendingOf raceStep1.2).readHistory (pendingOf raceStep1.2).message)

def raceFin2 : AgentManager × ChatResult :=
  chat_finish raceFin1.1 (pendingOf raceStep2.2)
    (echoRun (pendingOf raceStep2.2).readHistory (pendingOf raceStep2.2).message)

/-- The same two chats run sequentially (each turn completes before the
next begins). -/
def seqFin1 : AgentManager × ChatResult := chat echoRun 1 raceBase "alice" "a"

def seqFin2 : AgentManager × ChatResult := chat echoRun 2 seqFin1.1 "alice" "b"

/-- C6: the dispatch pipeline holds no per-session lock, and the
begin–begin–finish–finish interleaving of two chat calls for `alice`
loses the first turn: sequentially the history ends with both turns in
order, but under the interleaved schedule both calls report success while
the final history holds only the second turn — a lost update the claimed
lock would prevent. -/
theorem C6_lost_update :
    seqFin2.2 = ChatResult.ok "b" ∧
    (get_session seqFin2.1 "alice").map (fun s => s.history_context)
      = some [Msg.user "a", Msg.assistant "a", Msg.user "b", Msg.assistant "b"] ∧
    raceFin1.2 = ChatResult.ok "a" ∧
    raceFin2.2 = ChatResult.ok "b" ∧
    (get_session raceFin2.1 "alice").map (fun s => s.history_context)
      = some [Msg.user "b", Msg.assistant "b"] := by
  refine ⟨rfl, rfl, rfl, rfl, rfl⟩

end MCPAgent
